import Mathlib

set_option linter.unusedVariables false

/-!
Shallow embedding of the `Mufi-Lang/mufi-bucket` automation scripts
(`update_mufiz.py`, the Scoop-manifest updater, and `hashes.py`, the hash
reporter) together with proofs about the behaviour of their operations.

External effects (the GitHub API response, HTTP response bodies, the
filesystem) are modelled as explicit inputs; the libraries the scripts call
(`hashlib`, `json`) are modelled at their documented interface contracts,
with SHA-256 itself implemented concretely.
-/

/-- Lookup in a Python-style insertion-ordered dictionary over string keys:
the value at the first matching key. -/
def dictGet {α : Type} : List (String × α) → String → Option α
  | [], _ => none
  | p :: rest, k => if p.1 == k then some p.2 else dictGet rest k

/-- Python dict assignment `d[k] = v`: replaces the value in place when the
key is present, otherwise appends the new pair at the end, mirroring dict
insertion-order semantics. -/
def dictSet {α : Type} : List (String × α) → String → α → List (String × α)
  | [], k, v => [(k, v)]
  | p :: rest, k, v => if p.1 == k then (k, v) :: rest else p :: dictSet rest k v

/-- Python substring test `needle in hay`, over explicit character lists. -/
def containsSub (needle : List Char) : List Char → Bool
  | [] => needle.isEmpty
  | c :: cs => needle.isPrefixOf (c :: cs) || containsSub needle cs

/-- Python `needle in hay` for strings. -/
def strContains (hay needle : String) : Bool := containsSub needle.data hay.data

/-- Python `s.endswith(sfx)`. -/
def strEndsWith (s sfx : String) : Bool := List.isPrefixOf sfx.data.reverse s.data.reverse

/-- Python `s.lstrip(chars)`: removes every leading character that occurs in
`chars` (not just one occurrence of a leading substring). -/
def pyLstrip (chars s : String) : String :=
  String.mk (s.data.dropWhile (fun c => chars.data.contains c))

/-! ### SHA-256 (the concrete hash behind the `hashlib` interface) -/

/-- Truncation to a 32-bit word. -/
def w32 (n : Nat) : Nat := n % 4294967296

/-- 32-bit right rotation (arguments below 2^32). -/
def rotr32 (n x : Nat) : Nat := w32 ((x >>> n) ||| (x <<< (32 - n)))

def shaCh (x y z : Nat) : Nat := (x &&& y) ^^^ ((x ^^^ 4294967295) &&& z)

def shaMaj (x y z : Nat) : Nat := (x &&& y) ^^^ (x &&& z) ^^^ (y &&& z)

def bigSigma0 (x : Nat) : Nat := rotr32 2 x ^^^ rotr32 13 x ^^^ rotr32 22 x

def bigSigma1 (x : Nat) : Nat := rotr32 6 x ^^^ rotr32 11 x ^^^ rotr32 25 x

def smallSigma0 (x : Nat) : Nat := rotr32 7 x ^^^ rotr32 18 x ^^^ (x >>> 3)

def smallSigma1 (x : Nat) : Nat := rotr32 17 x ^^^ rotr32 19 x ^^^ (x >>> 10)

/-- The SHA-256 round constants (decimal). -/
def K256 : List Nat :=
  [1116352408, 1899447441, 3049323471, 3921009573, 961987163, 1508970993,
   2453635748, 2870763221, 3624381080, 310598401, 607225278, 1426881987,
   1925078388, 2162078206, 2614888103, 3248222580, 3835390401, 4022224774,
   264347078, 604807628, 770255983, 1249150122, 1555081692, 1996064986,
   2554220882, 2821834349, 2952996808, 3210313671, 3336571891, 3584528711,
   113926993, 338241895, 666307205, 773529912, 1294757372, 1396182291,
   1695183700, 1986661051, 2177026350, 2456956037, 2730485921, 2820302411,
   3259730800, 3345764771, 3516065817, 3600352804, 4094571909, 275423344,
   430227734, 506948616, 659060556, 883997877, 958139571, 1322822218,
   1537002063, 1747873779, 1955562222, 2024104815, 2227730452, 2361852424,
   2428436474, 2756734187, 3204031479, 3329325298]

/-- The eight 32-bit words of a SHA-256 chaining state. -/
structure Hash8 where
  a : Nat
  b : Nat
  c : Nat
  d : Nat
  e : Nat
  f : Nat
  g : Nat
  h : Nat

/-- The SHA-256 initial chaining state (decimal). -/
def initH : Hash8 :=
  ⟨1779033703, 3144134277, 1013904242, 2773480762,
   1359893119, 2600822924, 528734635, 1541459225⟩

/-- Big-endian packing of bytes into 32-bit words. -/
def bytesToWords : List Nat → List Nat
  | b0 :: b1 :: b2 :: b3 :: rest =>
      ((b0 % 256) * 16777216 + (b1 % 256) * 65536 + (b2 % 256) * 256 + b3 % 256) :: bytesToWords rest
  | _ => []

/-- Extends the 16 block words by the given number of schedule rounds. -/
def msgSchedule : List Nat → Nat → List Nat
  | ws, 0 => ws
  | ws, r + 1 =>
      msgSchedule (ws ++ [w32 (smallSigma1 (ws.getD (ws.length - 2) 0) + ws.getD (ws.length - 7) 0 +
        smallSigma0 (ws.getD (ws.length - 15) 0) + ws.getD (ws.length - 16) 0)]) r

/-- One SHA-256 compression round; `kw` pairs the round constant with the
schedule word. -/
def roundStep (st : Hash8) (kw : Nat × Nat) : Hash8 :=
  let t1 := w32 (st.h + bigSigma1 st.e + shaCh st.e st.f st.g + kw.1 + kw.2)
  let t2 := w32 (bigSigma0 st.a + shaMaj st.a st.b st.c)
  ⟨w32 (t1 + t2), st.a, st.b, st.c, w32 (st.d + t1), st.e, st.f, st.g⟩

/-- SHA-256 compression of one 64-byte block. -/
def processBlock (H : Hash8) (block : List Nat) : Hash8 :=
  let st := (List.zip K256 (msgSchedule (bytesToWords block) 48)).foldl roundStep H
  ⟨w32 (H.a + st.a), w32 (H.b + st.b), w32 (H.c + st.c), w32 (H.d + st.d),
   w32 (H.e + st.e), w32 (H.f + st.f), w32 (H.g + st.g), w32 (H.h + st.h)⟩

/-- Folds the compression function over a padded message, 64 bytes at a time. -/
def processBlocks (H : Hash8) : List Nat → Hash8
  | [] => H
  | b :: rest => processBlocks (processBlock H (List.take 64 (b :: rest))) (List.drop 64 (b :: rest))
termination_by msg => msg.length
decreasing_by simp [List.length_drop]; omega

/-- The 8-byte big-endian encoding of the bit length. -/
def lenBytes64 (n : Nat) : List Nat :=
  [n / 72057594037927936 % 256, n / 281474976710656 % 256, n / 1099511627776 % 256,
   n / 4294967296 % 256, n / 16777216 % 256, n / 65536 % 256, n / 256 % 256, n % 256]

/-- SHA-256 padding for a message of `len` bytes: 0x80, zeros to 56 mod 64,
then the 64-bit big-endian bit length. -/
def padBytes (len : Nat) : List Nat :=
  128 :: (List.replicate ((119 - len % 64) % 64) 0 ++ lenBytes64 (len * 8))

/-- SHA-256 of a byte sequence, as the final chaining state. -/
def sha256Words (msg : List Nat) : Hash8 := processBlocks initH (msg ++ padBytes msg.length)

/-- A lowercase hexadecimal digit. -/
def hexDigit (n : Nat) : Char := if n < 10 then Char.ofNat (48 + n) else Char.ofNat (87 + n)

/-- The 8 lowercase hex characters of a 32-bit word, most significant first. -/
def wordHex (w : Nat) : List Char :=
  [hexDigit (w / 268435456 % 16), hexDigit (w / 16777216 % 16), hexDigit (w / 1048576 % 16),
   hexDigit (w / 65536 % 16), hexDigit (w / 4096 % 16), hexDigit (w / 256 % 16),
   hexDigit (w / 16 % 16), hexDigit (w % 16)]

/-- The lowercase hex digest of the SHA-256 of a byte sequence, as produced by
`hexdigest()`. -/
def sha256Hex (msg : List Nat) : String :=
  String.mk (wordHex (sha256Words msg).a ++ wordHex (sha256Words msg).b ++
    wordHex (sha256Words msg).c ++ wordHex (sha256Words msg).d ++
    wordHex (sha256Words msg).e ++ wordHex (sha256Words msg).f ++
    wordHex (sha256Words msg).g ++ wordHex (sha256Words msg).h)

/-! ### The `hashlib` interface, as used by both scripts

`hashlib` is an external library; its documented contract is that the final
digest is the SHA-256 of the concatenation of all bytes fed through `update`,
so an in-progress hash object is modelled by that byte sequence. -/

/-- A fresh `hashlib.sha256()` object (no bytes fed yet). -/
def hashlibInit : List Nat := []

/-- `h.update(chunk)` on a hash object. -/
def hashlibUpdate (st chunk : List Nat) : List Nat := st ++ chunk

/-- `h.hexdigest()` on a hash object. -/
def hashlibHexdigest (st : List Nat) : String := sha256Hex st

/-- The digest computed by the loop of `update_mufiz.download_and_hash` when
`iter_content` yields the given chunk sequence: a fresh hash object updated
chunk by chunk, then `hexdigest()`. -/
def streamDigest (chunks : List (List Nat)) : String :=
  hashlibHexdigest (chunks.foldl hashlibUpdate hashlibInit)

/-- The digest computed by `hashes.py`:
`hashlib.sha256(response.content).hexdigest()`, i.e. the whole body fed at
construction time. -/
def wholeBodyDigest (content : List Nat) : String :=
  hashlibHexdigest (hashlibUpdate hashlibInit content)

/-! ### `update_mufiz.py` -/

/-- A release asset, with the two fields the script reads. -/
structure Asset where
  name : String
  browser_download_url : String

/-- The release object returned by the GitHub latest-release endpoint, with
the two fields the script reads. -/
structure Release where
  tag_name : String
  assets : List Asset

/-- The fixed `ARCH_MAPPINGS` table, in its source (insertion) order. -/
def ARCH_MAPPINGS : List (String × String) :=
  [("x86_64-windows", "64bit"), ("x86-windows-gnu", "32bit"), ("aarch64-windows", "arm64")]

/-- The inner loop of `find_asset_urls`: the first `ARCH_MAPPINGS` entry whose
key occurs in the asset name, provided the name also ends with ".zip"
(the loop breaks at the first entry passing both tests). -/
def matchArch (asset_name : String) : Option (String × String) :=
  ARCH_MAPPINGS.find? (fun p => strContains asset_name p.1 && strEndsWith asset_name ".zip")

/-- `MufiZUpdater.find_asset_urls` (the `version` argument is unused, as in
the source): folds dict assignment of matched download URLs over the asset
list. -/
def find_asset_urls (release : Release) (version : String) : List (String × String) :=
  release.assets.foldl
    (fun urls asset =>
      match matchArch asset.name with
      | some p => dictSet urls p.2 asset.browser_download_url
      | none => urls)
    []

/-- JSON values, for the contents of the manifest file. -/
inductive JsonVal : Type where
  | null : JsonVal
  | bool : Bool → JsonVal
  | num : Int → JsonVal
  | str : String → JsonVal
  | arr : List JsonVal → JsonVal
  | obj : List (String × JsonVal) → JsonVal

/-- A loaded manifest: a JSON object as an insertion-ordered key-value list. -/
abbrev Manifest := List (String × JsonVal)

/-- Python `version == current_version` where `version` is a `str`: true
exactly when the JSON value is the same string (a `str` never equals a value
of another type). -/
def isStrEq (v : JsonVal) (s : String) : Bool :=
  match v with
  | JsonVal.str t => t == s
  | _ => false

/-- The `updated_archs` dictionary `\x7barch: \x7b"url": url, "hash": hash\x7d\x7d`
as a JSON value, from (arch, url, hash) triples. -/
def archsToJson (archs : List (String × String × String)) : JsonVal :=
  JsonVal.obj (archs.map (fun e => (e.1, JsonVal.obj [("url", JsonVal.str e.2.1), ("hash", JsonVal.str e.2.2)])))

/-- The external world of one updater run: the latest-release response
(`none` for a request failure or a falsy response object), the loaded
manifest (`none` for a missing file or malformed JSON), the streamed chunk
sequences of each download URL (`none` for a request failure), and whether
the final file write succeeds. -/
structure Env where
  latestRelease : Option Release
  loadedManifest : Option Manifest
  bodyChunks : String → Option (List (List Nat))
  saveOk : Bool

/-- `MufiZUpdater.download_and_hash`: `none` models a caught
`RequestException`; otherwise the streamed chunks are hashed incrementally. -/
def download_and_hash (env : Env) (url : String) : Option String :=
  (env.bodyChunks url).map streamDigest

/-- The observable outcome of `update_manifest`: its boolean result, the
manifest passed to `save_manifest` (if the write was attempted), whether the
already-up-to-date branch was taken, the URLs passed to `download_and_hash`
in order, and the (version, archs) payload printed in dry-run mode. -/
structure UpdateOutcome where
  success : Bool
  writeAttempted : Option Manifest
  upToDate : Bool
  hashedUrls : List String
  dryRunPrinted : Option (String × List (String × String × String))

/-- The per-architecture loop of `update_manifest`: downloads and hashes each
resolved URL in order, building `updated_archs`, and aborts at the first
failure. Also returns the list of URLs actually passed to
`download_and_hash`. -/
def processArchs (dh : String → Option String) :
    List (String × String) → Option (List (String × String × String)) × List String
  | [] => (some [], [])
  | p :: rest =>
    match dh p.2 with
    | none => (none, [p.2])
    | some h =>
      ((processArchs dh rest).1.map (fun tl => (p.1, p.2, h) :: tl),
        p.2 :: (processArchs dh rest).2)

/-- The tail of `update_manifest` after the version comparison: resolve asset
URLs, download and hash each, then either preview (dry run) or write the
mutated manifest. -/
def resolveAndCommit (dry_run : Bool) (env : Env) (release : Release) (version : String)
    (manifest : Manifest) : UpdateOutcome :=
  match (processArchs (download_and_hash env) (find_asset_urls release version)).1 with
  | none =>
    ⟨false, none, false, (processArchs (download_and_hash env) (find_asset_urls release version)).2,
      none⟩
  | some updated_archs =>
    if dry_run then
      ⟨true, none, false, (processArchs (download_and_hash env) (find_asset_urls release version)).2,
        some (version, updated_archs)⟩
    else
      ⟨env.saveOk,
        some (dictSet (dictSet manifest "version" (JsonVal.str version)) "architecture"
          (archsToJson updated_archs)),
        false, (processArchs (download_and_hash env) (find_asset_urls release version)).2, none⟩

/-- `MufiZUpdater.update_manifest`: fetch the release, derive the version by
`lstrip("v")`, load the manifest (a falsy — `None` or empty — result aborts),
compare versions, and otherwise resolve, hash and commit. -/
def update_manifest (dry_run : Bool) (env : Env) : UpdateOutcome :=
  match env.latestRelease with
  | none => ⟨false, none, false, [], none⟩
  | some release =>
    match env.loadedManifest with
    | none => ⟨false, none, false, [], none⟩
    | some manifest =>
      if manifest.isEmpty then ⟨false, none, false, [], none⟩
      else
        if isStrEq ((dictGet manifest "version").getD (JsonVal.str "unknown"))
            (pyLstrip "v" release.tag_name) then
          ⟨true, none, true, [], none⟩
        else resolveAndCommit dry_run env release (pyLstrip "v" release.tag_name) manifest

/-- The dry-run flag parsing of `main`: `"--dry-run" in sys.argv or "-n" in
sys.argv`. -/
def dryRunFlag (args : List String) : Bool :=
  args.contains "--dry-run" || args.contains "-n"

/-- The observable outcome of `main`: the process exit code, whether the
updater (and hence the network fetch) ran at all, and the manifest passed to
`save_manifest` if a write was attempted. -/
structure MainOutcome where
  exitCode : Nat
  networkUsed : Bool
  writeAttempted : Option Manifest

/-- `main` (named `main_entry` since Lean reserves `main`): parse the dry-run flag, exit 1 at once when the manifest file is
missing (before any updater or network activity), otherwise run
`update_manifest` and translate its boolean into the exit code. -/
def main_entry (args : List String) (manifestExists : Bool) (env : Env) : MainOutcome :=
  if !manifestExists then ⟨1, false, none⟩
  else
    let r := update_manifest (dryRunFlag args) env
    ⟨if r.success then 0 else 1, true, r.writeAttempted⟩

/-! ### `hashes.py` -/

/-- `TAG` from `hashes.py`. -/
def TAG : String := "next-experimental"

/-- `VERSION` from `hashes.py`. -/
def VERSION : String := "0.10.0"

/-- The first entry of `links` (the 64-bit build). -/
def linkA : String :=
  "https://github.com/Mustafif/MufiZ/releases/download/" ++ TAG ++ "/mufiz_" ++ VERSION ++
    "_x86_64-windows.zip"

/-- The second entry of `links` (the 32-bit build). -/
def linkB : String :=
  "https://github.com/Mustafif/MufiZ/releases/download/" ++ TAG ++ "/mufiz_" ++ VERSION ++
    "_x86-windows-gnu.zip"

/-- The third entry of `links` (the arm64 build). -/
def linkC : String :=
  "https://github.com/Mustafif/MufiZ/releases/download/" ++ TAG ++ "/mufiz_" ++ VERSION ++
    "_aarch64-windows.zip"

/-- The fixed `links` list of `hashes.py`. -/
def links : List String := [linkA, linkB, linkC]

/-- The enumerated loop of `hashes.py`: for each (index, link), fetch the
body (`body` gives each URL's full response content), hash it, and assign
`output["64bit"]` / `output["32bit"]` / `output["arm64"]` by index. -/
def hashesOutput (body : String → List Nat) : List (String × String × String) :=
  (List.enum links).foldl
    (fun out p =>
      let h := wholeBodyDigest (body p.2)
      if p.1 = 0 then dictSet out "64bit" (p.2, h)
      else if p.1 = 1 then dictSet out "32bit" (p.2, h)
      else if p.1 = 2 then dictSet out "arm64" (p.2, h)
      else out)
    []

/-! ### `json.dumps`, modelled for the shapes the scripts serialize

`json` is an external library; with default options it emits a single-line
document with ", " and ": " separators and ensure_ascii escaping, which the
following definitions reproduce for the hash reporter's output shape. -/

/-- The hex characters of a 16-bit code unit, for `\uXXXX` escapes. -/
def hex4 (n : Nat) : List Char :=
  [hexDigit (n / 4096 % 16), hexDigit (n / 256 % 16), hexDigit (n / 16 % 16), hexDigit (n % 16)]

/-- The characters `json.dumps` (default `ensure_ascii=True`) emits for one
character inside a string literal. -/
def escChar (c : Char) : List Char :=
  if c = Char.ofNat 34 then [Char.ofNat 92, Char.ofNat 34]
  else if c = Char.ofNat 92 then [Char.ofNat 92, Char.ofNat 92]
  else if c = Char.ofNat 10 then [Char.ofNat 92, 'n']
  else if c = Char.ofNat 13 then [Char.ofNat 92, 'r']
  else if c = Char.ofNat 9 then [Char.ofNat 92, 't']
  else if c = Char.ofNat 8 then [Char.ofNat 92, 'b']
  else if c = Char.ofNat 12 then [Char.ofNat 92, 'f']
  else if c.toNat < 32 ∨ 127 ≤ c.toNat then Char.ofNat 92 :: 'u' :: hex4 c.toNat
  else [c]

/-- A JSON string literal: quote, escaped characters, quote. -/
def jquote (s : String) : String :=
  String.mk (Char.ofNat 34 :: (s.data.flatMap escChar ++ [Char.ofNat 34]))

/-- One `"label": \x7b"url": ..., "hash": ...\x7d` member of the reporter's
output object. -/
def dumpEntry (e : String × String × String) : String :=
  jquote e.1 ++ ": \x7b\"url\": " ++ jquote e.2.1 ++ ", \"hash\": " ++ jquote e.2.2 ++ "\x7d"

/-- Joins serialized members with the default ", " item separator. -/
def sepJoin (sep : String) : List String → String
  | [] => ""
  | [s] => s
  | s :: rest => s ++ sep ++ sepJoin sep rest

/-- `json.dumps(output)` for the reporter's output object. -/
def jsonDumpsOutput (out : List (String × String × String)) : String :=
  "\x7b" ++ sepJoin ", " (out.map dumpEntry) ++ "\x7d"

/-- `json_output` from `hashes.py`: the serialized output object, which the
script then prints. -/
def json_output (body : String → List Nat) : String := jsonDumpsOutput (hashesOutput body)

/-- The spec-side derivation of the version string, following the claim's
words: the tag with one leading "v" character removed when the tag starts
with "v", and the tag unchanged otherwise. -/
def specDeriveVersion (tag : String) : String :=
  match tag.data with
  | 'v' :: rest => String.mk rest
  | _ => tag

/-- Whether a character is a lowercase hexadecimal digit. -/
def isHexCh (c : Char) : Bool := "0123456789abcdef".data.contains c

/-- The value attached to the last entry with the given label, used to state
what the fold of dict assignments computes. -/
def lastVal (lab : String) : List (String × String) → Option String
  | [] => none
  | e :: rest =>
    match lastVal lab rest with
    | some v => some v
    | none => if e.1 == lab then some e.2 else none

/-- The per-asset resolution step of `find_asset_urls`: the canonical label
and download URL an asset contributes, if any. -/
def assetLabelUrl (a : Asset) : Option (String × String) :=
  (matchArch a.name).map (fun p => (p.2, a.browser_download_url))

/-! ### Helper lemmas -/

theorem dictGet_dictSet_self {α : Type} (d : List (String × α)) (k : String) (v : α) :
    dictGet (dictSet d k v) k = some v := by
  induction d with
  | nil => simp [dictSet, dictGet]
  | cons p rest ih =>
    by_cases hpk : p.1 = k
    · simp [dictSet, dictGet, hpk]
    · simp only [dictSet, beq_iff_eq, hpk, if_false, dictGet, ih]

theorem dictGet_dictSet_ne {α : Type} (d : List (String × α)) (k k' : String) (v : α)
    (hne : k' ≠ k) : dictGet (dictSet d k v) k' = dictGet d k' := by
  induction d with
  | nil => simp [dictSet, dictGet, beq_iff_eq, Ne.symm hne]
  | cons p rest ih =>
    by_cases hpk : p.1 = k
    · subst hpk
      simp [dictSet, dictGet, beq_iff_eq, Ne.symm hne]
    · by_cases hpk' : p.1 = k'
      · simp [dictSet, dictGet, beq_iff_eq, hpk, hpk', hne]
      · simp [dictSet, dictGet, beq_iff_eq, hpk, hpk', ih]

theorem dictGet_nil {α : Type} (k : String) : dictGet ([] : List (String × α)) k = none := rfl

theorem foldl_dictSet_lastVal (L : List (String × String)) :
    ∀ (init : List (String × String)) (lab : String),
      dictGet (L.foldl (fun d e => dictSet d e.1 e.2) init) lab =
        match lastVal lab L with
        | some v => some v
        | none => dictGet init lab := by
  induction L with
  | nil => intro init lab; simp [lastVal]
  | cons e L ih =>
    intro init lab
    simp only [List.foldl_cons, lastVal]
    rw [ih]
    cases hL : lastVal lab L with
    | some v => simp
    | none =>
      simp only []
      by_cases hel : e.1 = lab
      · subst hel
        simp [dictGet_dictSet_self]
      · simp [beq_iff_eq, hel, dictGet_dictSet_ne _ _ _ _ (Ne.symm hel)]

theorem find_asset_urls_eq_foldl (assets : List Asset) :
    ∀ init : List (String × String),
      assets.foldl
        (fun urls asset =>
          match matchArch asset.name with
          | some p => dictSet urls p.2 asset.browser_download_url
          | none => urls) init =
      (assets.filterMap assetLabelUrl).foldl (fun d e => dictSet d e.1 e.2) init := by
  induction assets with
  | nil => intro init; simp
  | cons a assets ih =>
    intro init
    simp only [List.foldl_cons, List.filterMap_cons]
    cases hm : matchArch a.name with
    | none => simp [assetLabelUrl, hm, ih]
    | some p => simp [assetLabelUrl, hm, ih]

theorem foldl_hashlibUpdate (chunks : List (List Nat)) :
    ∀ acc : List Nat, chunks.foldl hashlibUpdate acc = acc ++ chunks.flatten := by
  induction chunks with
  | nil => intro acc; simp [List.flatten]
  | cons c chunks ih => intro acc; simp [hashlibUpdate, ih, List.flatten]

theorem strData_mk (l : List Char) : (String.mk l).data = l := rfl

theorem strData_append (a b : String) : (a ++ b).data = a.data ++ b.data := by
  cases a; cases b; rfl

theorem hexDigit_isHex (n : Nat) (h : n < 16) : isHexCh (hexDigit n) = true := by
  interval_cases n <;> decide

theorem isHexCh_ne_nl (c : Char) (h : isHexCh c = true) : c ≠ Char.ofNat 10 := by
  intro he
  subst he
  exact absurd h (by decide)

theorem wordHex_chars (w : Nat) : ∀ c ∈ wordHex w, isHexCh c = true := by
  intro c hc
  simp only [wordHex, List.mem_cons, List.not_mem_nil, or_false] at hc
  rcases hc with h|h|h|h|h|h|h|h <;>
    (subst h; exact hexDigit_isHex _ (Nat.mod_lt _ (by norm_num)))

theorem sha256Hex_length (msg : List Nat) : (sha256Hex msg).length = 64 := by
  simp [sha256Hex, String.length, wordHex]

theorem sha256Hex_chars (msg : List Nat) : ∀ c ∈ (sha256Hex msg).data, isHexCh c = true := by
  intro c hc
  simp only [sha256Hex, strData_mk, List.mem_append] at hc
  rcases hc with ((((((h|h)|h)|h)|h)|h)|h)|h <;> exact wordHex_chars _ c h

theorem hex4_ne_nl (n : Nat) : ∀ c ∈ hex4 n, c ≠ Char.ofNat 10 := by
  intro c hc
  simp only [hex4, List.mem_cons, List.not_mem_nil, or_false] at hc
  rcases hc with h|h|h|h <;>
    (subst h; exact isHexCh_ne_nl _ (hexDigit_isHex _ (Nat.mod_lt _ (by norm_num))))

theorem escChar_ne_nl (c : Char) : ∀ x ∈ escChar c, x ≠ Char.ofNat 10 := by
  intro x hx he
  subst he
  unfold escChar at hx
  split_ifs at hx with h1 h2 h3 h4 h5 h6 h7 h8
  · exact absurd hx (by decide)
  · exact absurd hx (by decide)
  · exact absurd hx (by decide)
  · exact absurd hx (by decide)
  · exact absurd hx (by decide)
  · exact absurd hx (by decide)
  · exact absurd hx (by decide)
  · rcases List.mem_cons.mp hx with h | hx2
    · exact absurd h (by decide)
    · rcases List.mem_cons.mp hx2 with h | hx3
      · exact absurd h (by decide)
      · exact hex4_ne_nl _ _ hx3 rfl
  · have hc10 : c = Char.ofNat 10 := by
      rcases List.mem_cons.mp hx with h | h
      · exact h.symm
      · exact absurd h (List.not_mem_nil _)
    subst hc10
    exact h8 (Or.inl (by decide))

theorem mem_jquote (s : String) (c : Char) (hc : c ∈ (jquote s).data) :
    c = Char.ofNat 34 ∨ ∃ c2 ∈ s.data, c ∈ escChar c2 := by
  simp only [jquote, strData_mk, List.mem_cons, List.mem_append, List.mem_flatMap,
    List.not_mem_nil, or_false] at hc
  rcases hc with h | (⟨c2, hc2, hcc⟩ | h)
  · exact Or.inl h
  · exact Or.inr ⟨c2, hc2, hcc⟩
  · exact Or.inl h

theorem jquote_no_nl (s : String) : ∀ c ∈ (jquote s).data, c ≠ Char.ofNat 10 := by
  intro c hc
  rcases mem_jquote s c hc with h | ⟨c2, _, hcc⟩
  · subst h; decide
  · exact escChar_ne_nl c2 c hcc

theorem dumpEntry_no_nl (e : String × String × String) :
    ∀ c ∈ (dumpEntry e).data, c ≠ Char.ofNat 10 := by
  intro c hc
  simp only [dumpEntry, strData_append, List.mem_append] at hc
  rcases hc with ((((h|h)|h)|h)|h)|h
  · exact jquote_no_nl _ c h
  · intro he; subst he; exact absurd h (by decide)
  · exact jquote_no_nl _ c h
  · intro he; subst he; exact absurd h (by decide)
  · exact jquote_no_nl _ c h
  · intro he; subst he; exact absurd h (by decide)

theorem mem_sepJoin (sep : String) :
    ∀ (l : List String) (c : Char), c ∈ (sepJoin sep l).data →
      c ∈ sep.data ∨ ∃ s ∈ l, c ∈ s.data := by
  intro l
  induction l with
  | nil =>
    intro c hc
    simp only [sepJoin] at hc
    exact absurd hc (List.not_mem_nil c)
  | cons s rest ih =>
    intro c hc
    cases rest with
    | nil =>
      simp only [sepJoin] at hc
      exact Or.inr ⟨s, List.mem_cons_self s [], hc⟩
    | cons t rest2 =>
      simp only [sepJoin, strData_append, List.mem_append] at hc
      rcases hc with (hc | hc) | hc
      · exact Or.inr ⟨s, by simp, hc⟩
      · exact Or.inl hc
      · rcases ih c hc with h | ⟨u, hu, hcu⟩
        · exact Or.inl h
        · exact Or.inr ⟨u, by simp [hu], hcu⟩

theorem jsonDumpsOutput_no_nl (out : List (String × String × String)) :
    ∀ c ∈ (jsonDumpsOutput out).data, c ≠ Char.ofNat 10 := by
  intro c hc
  simp only [jsonDumpsOutput, strData_append, List.mem_append] at hc
  rcases hc with (h | h) | h
  · intro he; subst he; exact absurd h (by decide)
  · rcases mem_sepJoin ", " (out.map dumpEntry) c h with h2 | ⟨s, hs, hcs⟩
    · intro he; subst he; exact absurd h2 (by decide)
    · rcases List.mem_map.mp hs with ⟨e, _, rfl⟩
      exact dumpEntry_no_nl e c hcs
  · intro he; subst he; exact absurd h (by decide)

theorem dropWhile_head_not {α : Type} (p : α → Bool) :
    ∀ (l : List α) (c : α) (cs : List α), l.dropWhile p = c :: cs → p c = false := by
  intro l
  induction l with
  | nil => intro c cs h; simp [List.dropWhile] at h
  | cons a l ih =>
    intro c cs h
    rw [List.dropWhile_cons] at h
    by_cases hpa : p a = true
    · exact ih c cs (by simpa [hpa] using h)
    · simp only [hpa, if_false] at h
      cases h
      simpa using hpa

theorem processArchs_none (dh : String → Option String) (l : List (String × String))
    (h : ∃ e ∈ l, dh e.2 = none) : (processArchs dh l).1 = none := by
  induction l with
  | nil =>
    rcases h with ⟨e, he, _⟩
    exact absurd he (List.not_mem_nil e)
  | cons a rest ih =>
    rcases h with ⟨e, he, hnone⟩
    cases hda : dh a.2 with
    | none => simp [processArchs, hda]
    | some hv =>
      have hr : ∃ e2 ∈ rest, dh e2.2 = none := by
        rcases List.mem_cons.mp he with heq | hmem
        · subst heq; rw [hda] at hnone; cases hnone
        · exact ⟨e, hmem, hnone⟩
      simp [processArchs, hda, ih hr]

theorem list_isEmpty_false {α : Type} (l : List α) (h : l ≠ []) : l.isEmpty = false := by
  cases l with
  | nil => exact absurd rfl h
  | cons a l => rfl

/-- `update_manifest` on a successful fetch and load with a version mismatch
runs the resolve-download-commit tail. -/
theorem update_manifest_mismatch (dry : Bool) (env : Env) (r : Release) (m : Manifest)
    (h1 : env.latestRelease = some r) (h2 : env.loadedManifest = some m) (h3 : m ≠ [])
    (h4 : isStrEq ((dictGet m "version").getD (JsonVal.str "unknown"))
      (pyLstrip "v" r.tag_name) = false) :
    update_manifest dry env = resolveAndCommit dry env r (pyLstrip "v" r.tag_name) m := by
  simp [update_manifest, h1, h2, list_isEmpty_false m h3, h4]

/-- `update_manifest` on a successful fetch and load with matching versions
takes the already-up-to-date branch. -/
theorem update_manifest_upToDate (dry : Bool) (env : Env) (r : Release) (m : Manifest)
    (h1 : env.latestRelease = some r) (h2 : env.loadedManifest = some m)
    (h3 : dictGet m "version" = some (JsonVal.str (pyLstrip "v" r.tag_name))) :
    update_manifest dry env = ⟨true, none, true, [], none⟩ := by
  have h4 : m ≠ [] := by
    intro he
    subst he
    rw [dictGet_nil] at h3
    cases h3
  simp [update_manifest, h1, h2, list_isEmpty_false m h4, h3, isStrEq]

/-! ### The claims -/

/-- Claim C1, counterexample: two ".zip" assets whose names both contain
"x86_64-windows". `find_asset_urls` stores the second asset's URL for
"64bit" — a later match for an already-resolved label overwrites the stored
URL instead of being ignored, so the first resolved URL is not kept. -/
theorem C1_counterexample :
    dictGet (find_asset_urls
        ⟨"v1.0.0", [⟨"mufiz_x86_64-windows.zip", "urlA"⟩,
                    ⟨"other_x86_64-windows.zip", "urlB"⟩]⟩ "1.0.0") "64bit" = some "urlB" ∧
      ("urlB" : String) ≠ "urlA" := by
  constructor
  · rfl
  · decide

/-- Claim C1, amended: for every release asset list, `find_asset_urls`
resolves each asset to at most one canonical label using the fixed
architecture-substring table in table order (first match wins per asset)
and requires the asset name to end with ".zip"; the mapping keeps, for each
canonical label, the URL of the LAST asset resolving to it — a later asset
matching an already-resolved label overwrites the stored URL. -/
theorem C1_prop (release : Release) (version lab : String) :
    dictGet (find_asset_urls release version) lab =
      lastVal lab (release.assets.filterMap assetLabelUrl) := by
  unfold find_asset_urls
  rw [find_asset_urls_eq_foldl, foldl_dictSet_lastVal]
  cases lastVal lab (release.assets.filterMap assetLabelUrl) <;> simp [dictGet]

/-- Claim C2, counterexample: on the tag "vv0.10.0" the code's
`lstrip("v")` removes BOTH leading "v" characters, while the claim's
derivation (one leading "v" removed) keeps the second one. -/
theorem C2_counterexample :
    pyLstrip "v" "vv0.10.0" = "0.10.0" ∧ specDeriveVersion "vv0.10.0" = "v0.10.0" ∧
      ("0.10.0" : String) ≠ "v0.10.0" := by
  refine ⟨?_, ?_, ?_⟩ <;> decide

/-- Claim C2, amended: the derived version string equals the tag with ALL
leading "v" characters removed (so it is some suffix of the tag after a
block of "v"s, and never itself starts with "v"); when the tag starts with
at most one "v" this coincides with the claim's wording. -/
theorem C2_prop (tag : String) :
    (∃ k, tag.data = List.replicate k 'v' ++ (pyLstrip "v" tag).data) ∧
      ∀ l, (pyLstrip "v" tag).data ≠ 'v' :: l := by
  constructor
  · refine ⟨(tag.data.takeWhile (fun c => "v".data.contains c)).length, ?_⟩
    have h1 : tag.data.takeWhile (fun c => "v".data.contains c) =
        List.replicate (tag.data.takeWhile (fun c => "v".data.contains c)).length 'v' := by
      apply List.eq_replicate_of_mem
      intro b hb
      have hb2 := List.mem_takeWhile_imp hb
      simpa using hb2
    rw [show (pyLstrip "v" tag).data = tag.data.dropWhile (fun c => "v".data.contains c) from rfl,
      ← h1]
    exact (List.takeWhile_append_dropWhile (p := fun c => "v".data.contains c)
      (l := tag.data)).symm
  · intro l hl
    have h2 : ("v".data.contains 'v') = false :=
      dropWhile_head_not (fun c => "v".data.contains c) tag.data 'v' l hl
    exact absurd h2 (by decide)

/-- Claim C8: for every byte sequence split into any sequence of chunks, the
updater's incremental chunked hashing (a fresh hash object updated chunk by
chunk, then hexdigest) yields the same hex digest as the hash reporter's
one-shot hashing of the concatenated content. -/
theorem C8_prop (chunks : List (List Nat)) :
    streamDigest chunks = wholeBodyDigest chunks.flatten := by
  unfold streamDigest wholeBodyDigest
  rw [foldl_hashlibUpdate]
  simp [hashlibInit, hashlibUpdate]

/-- Claim C7: the hash reporter's output object holds exactly the keys
"64bit", "32bit" and "arm64" in that structural order, assigned positionally
from the fixed three-URL list (index 0, 1, 2 respectively); each value holds
the corresponding non-empty URL together with the SHA-256 hex digest of that
URL's full response body, every digest is 64 lowercase hex characters, and
the serialized JSON document contains no newline (a single line). -/
theorem C7_prop (body : String → List Nat) :
    hashesOutput body =
      [("64bit", linkA, wholeBodyDigest (body linkA)),
       ("32bit", linkB, wholeBodyDigest (body linkB)),
       ("arm64", linkC, wholeBodyDigest (body linkC))] ∧
    (hashesOutput body).map Prod.fst = ["64bit", "32bit", "arm64"] ∧
    (linkA ≠ "" ∧ linkB ≠ "" ∧ linkC ≠ "") ∧
    (∀ content : List Nat, (wholeBodyDigest content).length = 64 ∧
      ∀ c ∈ (wholeBodyDigest content).data, isHexCh c = true) ∧
    (∀ c ∈ (json_output body).data, c ≠ Char.ofNat 10) := by
  refine ⟨rfl, rfl, ⟨by decide, by decide, by decide⟩, ?_, ?_⟩
  · intro content
    exact ⟨sha256Hex_length _, sha256Hex_chars _⟩
  · exact jsonDumpsOutput_no_nl _

theorem resolveAndCommit_dry_write (env : Env) (r : Release) (version : String) (m : Manifest) :
    (resolveAndCommit true env r version m).writeAttempted = none := by
  rcases hpr : (processArchs (download_and_hash env) (find_asset_urls r version)).1 with _ | archs
  · simp [resolveAndCommit, hpr]
  · simp [resolveAndCommit, hpr]

theorem update_manifest_dry_write (env : Env) :
    (update_manifest true env).writeAttempted = none := by
  unfold update_manifest
  cases env.latestRelease with
  | none => rfl
  | some r =>
    cases env.loadedManifest with
    | none => rfl
    | some m =>
      cases hm : m.isEmpty with
      | true => simp [hm]
      | false =>
        cases hv : isStrEq ((dictGet m "version").getD (JsonVal.str "unknown"))
            (pyLstrip "v" r.tag_name) with
        | true => simp [hm, hv]
        | false => simp [hm, hv, resolveAndCommit_dry_write]

/-- Claim C3: when the fetch and load succeed, the versions differ, and the
download of some resolved asset fails, the whole update aborts: the result
is failure, the manifest write is never attempted, and the process exits
with status 1 — nothing is committed. -/
theorem C3_prop (args : List String) (env : Env) (r : Release) (m : Manifest)
    (h1 : env.latestRelease = some r) (h2 : env.loadedManifest = some m) (h3 : m ≠ [])
    (h4 : isStrEq ((dictGet m "version").getD (JsonVal.str "unknown"))
      (pyLstrip "v" r.tag_name) = false)
    (h5 : ∃ e ∈ find_asset_urls r (pyLstrip "v" r.tag_name), env.bodyChunks e.2 = none) :
    (update_manifest (dryRunFlag args) env).success = false ∧
    (update_manifest (dryRunFlag args) env).writeAttempted = none ∧
    (main_entry args true env).exitCode = 1 ∧
    (main_entry args true env).writeAttempted = none := by
  have hp : (processArchs (download_and_hash env)
      (find_asset_urls r (pyLstrip "v" r.tag_name))).1 = none := by
    apply processArchs_none
    rcases h5 with ⟨e, he, hnone⟩
    exact ⟨e, he, by simp [download_and_hash, hnone]⟩
  have hu := update_manifest_mismatch (dryRunFlag args) env r m h1 h2 h3 h4
  have hs : (update_manifest (dryRunFlag args) env).success = false := by
    rw [hu]; simp [resolveAndCommit, hp]
  have hw : (update_manifest (dryRunFlag args) env).writeAttempted = none := by
    rw [hu]; simp [resolveAndCommit, hp]
  exact ⟨hs, hw, by simp [main_entry, hs], by simp [main_entry, hw]⟩

/-- Claim C3 witness: a concrete run (one resolved asset, failing download)
on which the update aborts with exit status 1 and no write. -/
theorem C3_witness :
    (∃ e ∈ find_asset_urls ⟨"v0.2.0", [⟨"mufiz_x86_64-windows.zip", "u"⟩]⟩
        (pyLstrip "v" "v0.2.0"),
      (fun (_ : String) => (none : Option (List (List Nat)))) e.2 = none) ∧
    (main_entry [] true ⟨some ⟨"v0.2.0", [⟨"mufiz_x86_64-windows.zip", "u"⟩]⟩,
      some [("version", JsonVal.str "0.1.0")], fun _ => none, true⟩).exitCode = 1 ∧
    (main_entry [] true ⟨some ⟨"v0.2.0", [⟨"mufiz_x86_64-windows.zip", "u"⟩]⟩,
      some [("version", JsonVal.str "0.1.0")], fun _ => none, true⟩).writeAttempted = none := by
  have h := C3_prop [] ⟨some ⟨"v0.2.0", [⟨"mufiz_x86_64-windows.zip", "u"⟩]⟩,
      some [("version", JsonVal.str "0.1.0")], fun _ => none, true⟩
    ⟨"v0.2.0", [⟨"mufiz_x86_64-windows.zip", "u"⟩]⟩ [("version", JsonVal.str "0.1.0")]
    rfl rfl (List.cons_ne_nil _ _) rfl ⟨("64bit", "u"), by decide, rfl⟩
  exact ⟨⟨("64bit", "u"), by decide, rfl⟩, h.2.2.1, h.2.2.2⟩

/-- Claim C4: when the loaded manifest's "version" equals the version derived
from the fetched tag, the updater reports up to date, succeeds (exit 0), and
performs no write, no download or hash, and no dry-run printing. -/
theorem C4_prop (args : List String) (env : Env) (r : Release) (m : Manifest)
    (h1 : env.latestRelease = some r) (h2 : env.loadedManifest = some m)
    (h3 : dictGet m "version" = some (JsonVal.str (pyLstrip "v" r.tag_name))) :
    (update_manifest (dryRunFlag args) env).success = true ∧
    (update_manifest (dryRunFlag args) env).upToDate = true ∧
    (update_manifest (dryRunFlag args) env).writeAttempted = none ∧
    (update_manifest (dryRunFlag args) env).hashedUrls = [] ∧
    (update_manifest (dryRunFlag args) env).dryRunPrinted = none ∧
    (main_entry args true env).exitCode = 0 ∧
    (main_entry args true env).writeAttempted = none := by
  have hu := update_manifest_upToDate (dryRunFlag args) env r m h1 h2 h3
  refine ⟨by rw [hu], by rw [hu], by rw [hu], by rw [hu], by rw [hu], ?_, ?_⟩
  · simp [main_entry, hu]
  · simp [main_entry, hu]

/-- Claim C4 witness: a concrete run with matching versions exits 0 with no
write and no hashed URLs. -/
theorem C4_witness :
    dictGet [("version", JsonVal.str "0.1.0")] "version" =
      some (JsonVal.str (pyLstrip "v" "v0.1.0")) ∧
    (main_entry [] true ⟨some ⟨"v0.1.0", []⟩, some [("version", JsonVal.str "0.1.0")],
      fun _ => none, true⟩).exitCode = 0 ∧
    (update_manifest (dryRunFlag []) ⟨some ⟨"v0.1.0", []⟩,
      some [("version", JsonVal.str "0.1.0")], fun _ => none, true⟩).hashedUrls = [] := by
  have h := C4_prop [] ⟨some ⟨"v0.1.0", []⟩, some [("version", JsonVal.str "0.1.0")],
      fun _ => none, true⟩ ⟨"v0.1.0", []⟩ [("version", JsonVal.str "0.1.0")] rfl rfl rfl
  exact ⟨rfl, h.2.2.2.2.2.1, h.2.2.2.1⟩

/-- Claim C5: with the --dry-run or -n flag, the manifest file is never
written regardless of outcome (missing file, fetch/load failure, shortfall,
up-to-date, or success); when the run reaches the commit point, the would-be
version and architecture mapping are printed and the process exits 0. -/
theorem C5_prop (args : List String) (hdry : dryRunFlag args = true) :
    (∀ (ex : Bool) (env : Env), (main_entry args ex env).writeAttempted = none) ∧
    (∀ (env : Env) (r : Release) (m : Manifest) (archs : List (String × String × String)),
      env.latestRelease = some r → env.loadedManifest = some m → m ≠ [] →
      isStrEq ((dictGet m "version").getD (JsonVal.str "unknown"))
        (pyLstrip "v" r.tag_name) = false →
      (processArchs (download_and_hash env)
        (find_asset_urls r (pyLstrip "v" r.tag_name))).1 = some archs →
      (update_manifest (dryRunFlag args) env).dryRunPrinted =
        some (pyLstrip "v" r.tag_name, archs) ∧
      (update_manifest (dryRunFlag args) env).success = true ∧
      (main_entry args true env).exitCode = 0) := by
  constructor
  · intro ex env
    cases ex with
    | false => rfl
    | true =>
      show (update_manifest (dryRunFlag args) env).writeAttempted = none
      rw [hdry]
      exact update_manifest_dry_write env
  · intro env r m archs h1 h2 h3 h4 h5
    have hu := update_manifest_mismatch (dryRunFlag args) env r m h1 h2 h3 h4
    have hp : (update_manifest (dryRunFlag args) env).dryRunPrinted =
        some (pyLstrip "v" r.tag_name, archs) := by
      rw [hu, hdry]; simp [resolveAndCommit, h5]
    have hs : (update_manifest (dryRunFlag args) env).success = true := by
      rw [hu, hdry]; simp [resolveAndCommit, h5]
    exact ⟨hp, hs, by simp [main_entry, hs]⟩

/-- Claim C5 witness: a concrete dry-run reaching the commit point prints the
would-be version and mapping, exits 0, and attempts no write. -/
theorem C5_witness :
    dryRunFlag ["-n"] = true ∧
    (main_entry ["-n"] true ⟨some ⟨"v0.2.0", [⟨"mufiz_x86_64-windows.zip", "u"⟩]⟩,
      some [("version", JsonVal.str "0.1.0")], fun _ => some [], true⟩).writeAttempted = none ∧
    (update_manifest (dryRunFlag ["-n"]) ⟨some ⟨"v0.2.0", [⟨"mufiz_x86_64-windows.zip", "u"⟩]⟩,
      some [("version", JsonVal.str "0.1.0")], fun _ => some [], true⟩).dryRunPrinted =
      some ("0.2.0", [("64bit", "u", streamDigest [])]) := by
  have h := (C5_prop ["-n"] rfl).2 ⟨some ⟨"v0.2.0", [⟨"mufiz_x86_64-windows.zip", "u"⟩]⟩,
      some [("version", JsonVal.str "0.1.0")], fun _ => some [], true⟩
    ⟨"v0.2.0", [⟨"mufiz_x86_64-windows.zip", "u"⟩]⟩ [("version", JsonVal.str "0.1.0")]
    [("64bit", "u", streamDigest [])] rfl rfl (List.cons_ne_nil _ _) rfl rfl
  exact ⟨rfl, (C5_prop ["-n"] rfl).1 true _, h.1⟩

/-- Claim C6: a successful non-dry-run update writes the loaded manifest with
exactly two keys changed — "version" set to the derived version and
"architecture" wholly replaced by the newly built label-to-(url, hash)
mapping — while lookup at every other key is unchanged; the process exits 0. -/
theorem C6_prop (args : List String) (env : Env) (r : Release) (m : Manifest)
    (archs : List (String × String × String))
    (hdry : dryRunFlag args = false)
    (h1 : env.latestRelease = some r) (h2 : env.loadedManifest = some m) (h3 : m ≠ [])
    (h4 : isStrEq ((dictGet m "version").getD (JsonVal.str "unknown"))
      (pyLstrip "v" r.tag_name) = false)
    (h5 : (processArchs (download_and_hash env)
      (find_asset_urls r (pyLstrip "v" r.tag_name))).1 = some archs)
    (h6 : env.saveOk = true) :
    ∃ m2 : Manifest,
      (update_manifest (dryRunFlag args) env).writeAttempted = some m2 ∧
      (update_manifest (dryRunFlag args) env).success = true ∧
      (main_entry args true env).exitCode = 0 ∧
      (main_entry args true env).writeAttempted = some m2 ∧
      dictGet m2 "version" = some (JsonVal.str (pyLstrip "v" r.tag_name)) ∧
      dictGet m2 "architecture" = some (archsToJson archs) ∧
      ∀ k : String, k ≠ "version" → k ≠ "architecture" → dictGet m2 k = dictGet m k := by
  have hu := update_manifest_mismatch (dryRunFlag args) env r m h1 h2 h3 h4
  refine ⟨dictSet (dictSet m "version" (JsonVal.str (pyLstrip "v" r.tag_name))) "architecture"
    (archsToJson archs), ?_, ?_, ?_, ?_, ?_, ?_, ?_⟩
  · rw [hu, hdry]; simp [resolveAndCommit, h5]
  · rw [hu, hdry]; simp [resolveAndCommit, h5, h6]
  · have hs : (update_manifest (dryRunFlag args) env).success = true := by
      rw [hu, hdry]; simp [resolveAndCommit, h5, h6]
    simp [main_entry, hs]
  · have hw : (update_manifest (dryRunFlag args) env).writeAttempted =
        some (dictSet (dictSet m "version" (JsonVal.str (pyLstrip "v" r.tag_name)))
          "architecture" (archsToJson archs)) := by
      rw [hu, hdry]; simp [resolveAndCommit, h5]
    simp [main_entry, hw]
  · rw [dictGet_dictSet_ne _ _ _ _ (by decide)]
    exact dictGet_dictSet_self _ _ _
  · exact dictGet_dictSet_self _ _ _
  · intro k hk1 hk2
    rw [dictGet_dictSet_ne _ _ _ _ hk2, dictGet_dictSet_ne _ _ _ _ hk1]

/-- Claim C6 witness: a concrete successful non-dry-run update writes a
manifest whose "version" and "architecture" are replaced and whose other key
("homepage") is preserved. -/
theorem C6_witness :
    dryRunFlag [] = false ∧
    (∃ m2 : Manifest,
      (update_manifest (dryRunFlag []) ⟨some ⟨"v0.2.0", [⟨"mufiz_x86_64-windows.zip", "u"⟩]⟩,
        some [("version", JsonVal.str "0.1.0"), ("homepage", JsonVal.str "hp")],
        fun _ => some [], true⟩).writeAttempted = some m2 ∧
      (update_manifest (dryRunFlag []) ⟨some ⟨"v0.2.0", [⟨"mufiz_x86_64-windows.zip", "u"⟩]⟩,
        some [("version", JsonVal.str "0.1.0"), ("homepage", JsonVal.str "hp")],
        fun _ => some [], true⟩).success = true ∧
      (main_entry [] true ⟨some ⟨"v0.2.0", [⟨"mufiz_x86_64-windows.zip", "u"⟩]⟩,
        some [("version", JsonVal.str "0.1.0"), ("homepage", JsonVal.str "hp")],
        fun _ => some [], true⟩).exitCode = 0 ∧
      (main_entry [] true ⟨some ⟨"v0.2.0", [⟨"mufiz_x86_64-windows.zip", "u"⟩]⟩,
        some [("version", JsonVal.str "0.1.0"), ("homepage", JsonVal.str "hp")],
        fun _ => some [], true⟩).writeAttempted = some m2 ∧
      dictGet m2 "version" = some (JsonVal.str (pyLstrip "v" "v0.2.0")) ∧
      dictGet m2 "architecture" = some (archsToJson [("64bit", "u", streamDigest [])]) ∧
      ∀ k : String, k ≠ "version" → k ≠ "architecture" →
        dictGet m2 k =
          dictGet [("version", JsonVal.str "0.1.0"), ("homepage", JsonVal.str "hp")] k) := by
  refine ⟨rfl, ?_⟩
  exact C6_prop [] ⟨some ⟨"v0.2.0", [⟨"mufiz_x86_64-windows.zip", "u"⟩]⟩,
      some [("version", JsonVal.str "0.1.0"), ("homepage", JsonVal.str "hp")],
      fun _ => some [], true⟩
    ⟨"v0.2.0", [⟨"mufiz_x86_64-windows.zip", "u"⟩]⟩
    [("version", JsonVal.str "0.1.0"), ("homepage", JsonVal.str "hp")]
    [("64bit", "u", streamDigest [])] rfl rfl rfl (List.cons_ne_nil _ _) rfl rfl rfl

/-- Claim C9: when the manifest file does not exist, the process exits with
status 1 before the updater runs, hence before any network request. -/
theorem C9_prop (args : List String) (env : Env) :
    (main_entry args false env).exitCode = 1 ∧
    (main_entry args false env).networkUsed = false ∧
    (main_entry args false env).writeAttempted = none :=
  ⟨rfl, rfl, rfl⟩

/-- Claim C10, counterexample: a manifest that parses as the empty JSON
object lacks a "version" key, yet the updater FAILS on it (the falsy check
`if not manifest` aborts), exiting 1 instead of proceeding as a mismatch. -/
theorem C10_counterexample :
    (update_manifest false ⟨some ⟨"v0.2.0", []⟩, some ([] : Manifest),
      fun _ => some [], true⟩).success = false ∧
    (main_entry [] true ⟨some ⟨"v0.2.0", []⟩, some ([] : Manifest),
      fun _ => some [], true⟩).exitCode = 1 ∧
    dictGet ([] : Manifest) "version" = none ∧
    pyLstrip "v" "v0.2.0" ≠ "unknown" := by
  refine ⟨rfl, rfl, rfl, by decide⟩

/-- Claim C10, amended: for every loaded manifest that is a NON-EMPTY JSON
object lacking a "version" key, the updater does not fail at the version
step: the current version is taken to be the sentinel "unknown", and when
the derived release version differs from "unknown" the update proceeds
exactly as for an ordinary version mismatch (the resolve-hash-commit tail). -/
theorem C10_prop (d : Bool) (env : Env) (r : Release) (m : Manifest)
    (h1 : env.latestRelease = some r) (h2 : env.loadedManifest = some m) (h3 : m ≠ [])
    (hv : dictGet m "version" = none)
    (hne : pyLstrip "v" r.tag_name ≠ "unknown") :
    (dictGet m "version").getD (JsonVal.str "unknown") = JsonVal.str "unknown" ∧
    update_manifest d env = resolveAndCommit d env r (pyLstrip "v" r.tag_name) m := by
  have hgd : (dictGet m "version").getD (JsonVal.str "unknown") = JsonVal.str "unknown" := by
    rw [hv]; rfl
  refine ⟨hgd, ?_⟩
  apply update_manifest_mismatch d env r m h1 h2 h3
  rw [hgd]
  simp only [isStrEq, beq_eq_false_iff_ne, ne_eq]
  exact fun he => hne he.symm

/-- Claim C10 witness: a concrete non-empty manifest without "version"
proceeds into the ordinary mismatch tail. -/
theorem C10_witness :
    dictGet [("homepage", JsonVal.str "hp")] "version" = none ∧
    pyLstrip "v" "v0.2.0" ≠ "unknown" ∧
    update_manifest false ⟨some ⟨"v0.2.0", [⟨"mufiz_x86_64-windows.zip", "u"⟩]⟩,
        some [("homepage", JsonVal.str "hp")], fun _ => some [], true⟩ =
      resolveAndCommit false ⟨some ⟨"v0.2.0", [⟨"mufiz_x86_64-windows.zip", "u"⟩]⟩,
        some [("homepage", JsonVal.str "hp")], fun _ => some [], true⟩
        ⟨"v0.2.0", [⟨"mufiz_x86_64-windows.zip", "u"⟩]⟩ (pyLstrip "v" "v0.2.0")
        [("homepage", JsonVal.str "hp")] := by
  refine ⟨rfl, by decide, ?_⟩
  exact (C10_prop false ⟨some ⟨"v0.2.0", [⟨"mufiz_x86_64-windows.zip", "u"⟩]⟩,
      some [("homepage", JsonVal.str "hp")], fun _ => some [], true⟩
    ⟨"v0.2.0", [⟨"mufiz_x86_64-windows.zip", "u"⟩]⟩ [("homepage", JsonVal.str "hp")]
    rfl rfl (List.cons_ne_nil _ _) rfl (by decide)).2
